import Mathlib

/-!
Verification development for the `ncobase/common` logging subsystem
(`src/log/log.go`): a shallow embedding of the logger globals, the file
sink and rotation manager, the trace-id enrichment of emitted entries,
and the Meilisearch / Elasticsearch hooks, together with theorems about
the specified behaviour.
-/

namespace CommonLog

/-- Go `strings.TrimSuffix`: drop `suffix` from the end of `s` when
present (stated on the character sequences of the two strings). -/
def trimSuffix (s suffix : String) : String :=
  if suffix.data.isSuffixOf s.data then
    String.mk (s.data.take (s.data.length - suffix.data.length))
  else s

/-- The dated log-file name built in `rotateLog`:
`fmt.Sprintf("%s.%s.log", strings.TrimSuffix(logPath, ".log"), date)`. -/
def logFilePathFor (logPath date : String) : String :=
  trimSuffix logPath ".log" ++ "." ++ date ++ ".log"

/-- Linux `os.O_WRONLY`. -/
def O_WRONLY : Nat := 1
/-- Linux `os.O_CREATE`. -/
def O_CREATE : Nat := 64
/-- Linux `os.O_APPEND`. -/
def O_APPEND : Nat := 1024

/-- An open-file handle: its descriptor id and the path it writes to. -/
structure Handle where
  id : Nat
  path : String
deriving DecidableEq, Repr

/-- File-system events performed by the rotation manager, in order. -/
inductive FsEvent
  | closed (id : Nat)
  | openedFile (path : String) (flags perm : Nat)
deriving DecidableEq, Repr

def FsEvent.isOpenEvt : FsEvent → Bool
  | FsEvent.closed _ => false
  | FsEvent.openedFile _ _ _ => true

/-- The file system: a fresh-descriptor counter, the set of open
descriptors, and the contents (lines) of each existing file. -/
structure FsState where
  nextId : Nat
  openIds : List Nat
  files : List (String × List String)
deriving DecidableEq, Repr

def ensureFile (files : List (String × List String)) (p : String) :
    List (String × List String) :=
  if (files.lookup p).isSome then files else (p, []) :: files

def appendLine (files : List (String × List String)) (p : String)
    (line : String) : List (String × List String) :=
  files.map (fun e => if e.1 = p then (e.1, e.2 ++ [line]) else e)

/-- Close a handle: its descriptor stops being open. -/
def FsState.closeH (fs : FsState) (h : Handle) : FsState :=
  { fs with openIds := fs.openIds.erase h.id }

/-- Open (append/create) a file: allocate a fresh descriptor and create
the file if it does not exist yet. -/
def FsState.openH (fs : FsState) (p : String) : Handle × FsState :=
  (⟨fs.nextId, p⟩,
   { fs with
      nextId := fs.nextId + 1
      openIds := fs.nextId :: fs.openIds
      files := ensureFile fs.files p })

/-- The two hook kinds registered by the log package.  The Go code
compares a freshly allocated `&MeiliSearchHook{}` / `&ElasticSearchHook{}`
against the installed hooks with `==`; both structs are empty, and under
the Go runtime pointers to zero-size allocations coincide, so interface
equality reduces to equality of the hook's dynamic type, i.e. its kind. -/
inductive HookKind
  | meili
  | elastic
deriving DecidableEq, Repr

/-- The logger's active output sink (`logrus.Logger.Out`). -/
inductive Sink
  | stdout
  | stderr
  | fileH (h : Handle)
  | dflt
deriving DecidableEq, Repr

structure MeiliClientCfg where
  host : String
  apiKey : String
deriving DecidableEq, Repr

structure ESClientCfg where
  addresses : List String
  username : String
  password : String
deriving DecidableEq, Repr

/-- The package-level globals of `log.go` together with the singleton
logger's mutable configuration, plus a flag recording whether the
`periodicLogRotation` goroutine has been started. -/
structure GlobalState where
  level : Nat
  format : String
  out : Sink
  hooks : List HookKind
  version : String
  logFile : Option Handle
  logPath : String
  meiliClient : Option MeiliClientCfg
  esClient : Option ESClientCfg
  indexName : String
  rotationStarted : Bool
deriving DecidableEq, Repr

/-- Environment oracle for the OS calls the code makes: the current date,
which closes and opens fail, whether `os.MkdirAll` fails, and whether
`elastic.NewClient` fails. -/
structure SysEnv where
  today : String
  closeFails : Nat → Bool
  openFails : String → Bool
  mkdirFails : Bool
  esNewFails : Bool

/-- `os.File.Close` succeeds when the descriptor is still open and the
environment does not make it fail (closing an already-closed file
returns `ErrClosed`). -/
def closeSucceeds (env : SysEnv) (fs : FsState) (h : Handle) : Bool :=
  fs.openIds.contains h.id && !(env.closeFails h.id)

structure RotateResult where
  g : GlobalState
  fs : FsState
  events : List FsEvent
  err : Option String

/-- The open half of `rotateLog`: compute the dated name, open it
append/write/create with mode 0666, and on success install it as both
`logFile` and the logger's output. -/
def rotateOpen (env : SysEnv) (g : GlobalState) (fs : FsState)
    (evts : List FsEvent) : RotateResult :=
  let logFilePath := logFilePathFor g.logPath env.today
  if env.openFails logFilePath then
    { g := g, fs := fs, events := evts, err := some "open failed" }
  else
    let of := fs.openH logFilePath
    { g := { g with logFile := some of.1, out := Sink.fileH of.1 }
      fs := of.2
      events := evts ++ [FsEvent.openedFile logFilePath
        (O_APPEND ||| O_WRONLY ||| O_CREATE) 438]
      err := none }

/-- `rotateLog`: close the current handle if there is one (aborting on
failure), then open the newly dated file and swap it in. -/
def rotateLog (env : SysEnv) (g : GlobalState) (fs : FsState) : RotateResult :=
  match g.logFile with
  | some h =>
      if closeSucceeds env fs h then
        rotateOpen env g (fs.closeH h) [FsEvent.closed h.id]
      else
        { g := g, fs := fs, events := [], err := some "close failed" }
  | none => rotateOpen env g fs []

/-- `setupLogFile`: create parent directories, then rotate. -/
def setupLogFile (env : SysEnv) (g : GlobalState) (fs : FsState) : RotateResult :=
  if env.mkdirFails then
    { g := g, fs := fs, events := [], err := some "mkdir failed" }
  else rotateLog env g fs

/-- logrus log levels (only the distinction "error level" matters here). -/
inductive LogLevel
  | debug
  | info
  | warn
  | error
  | fatal
  | panicLv
deriving DecidableEq, Repr

structure TickResult where
  g : GlobalState
  fs : FsState
  emitted : List (LogLevel × String)
  err : Option String

/-- One tick of `periodicLogRotation`: run `rotateLog`; on failure emit a
single error-level entry `Errorf("Error rotating log: %v", err)` and keep
running. -/
def tickRotation (env : SysEnv) (g : GlobalState) (fs : FsState) : TickResult :=
  let r := rotateLog env g fs
  match r.err with
  | some e =>
      { g := r.g, fs := r.fs
        emitted := [(LogLevel.error, "Error rotating log: " ++ e)]
        err := some e }
  | none => { g := r.g, fs := r.fs, emitted := [], err := none }

/-- A write through the logger's current sink: appending to a file handle
succeeds only while its descriptor is open; console sinks always accept. -/
def writeToSink (g : GlobalState) (fs : FsState) (line : String) :
    FsState × Bool :=
  match g.out with
  | Sink.fileH h =>
      if fs.openIds.contains h.id then
        ({ fs with files := appendLine fs.files h.path line }, true)
      else (fs, false)
  | _ => (fs, true)

/-- `hookExists`: scan the logger's installed hooks for one equal to the
candidate (see `HookKind` for why Go's `==` here is kind equality). -/
def hookExists (hooks : List HookKind) (k : HookKind) : Bool :=
  hooks.contains k

/-- `AddMeiliSearchHook`: when a Meilisearch client is configured, add the
hook unless an equal one is already installed. -/
def addMeiliSearchHook (g : GlobalState) : GlobalState :=
  match g.meiliClient with
  | some _ =>
      if hookExists g.hooks HookKind.meili then g
      else { g with hooks := g.hooks ++ [HookKind.meili] }
  | none => g

/-- `AddElasticSearchHook`: when an Elasticsearch client is configured,
add the hook unless an equal one is already installed. -/
def addElasticSearchHook (g : GlobalState) : GlobalState :=
  match g.esClient with
  | some _ =>
      if hookExists g.hooks HookKind.elastic then g
      else { g with hooks := g.hooks ++ [HookKind.elastic] }
  | none => g

/-- Iterate a registration path `n` times. -/
def iterHook (f : GlobalState → GlobalState) : Nat → GlobalState → GlobalState
  | 0, g => g
  | n + 1, g => iterHook f n (f g)

/-- The logger configuration consumed by `Init`. -/
structure LoggerConfig where
  level : Nat
  format : String
  output : String
  outputFile : String
  meiliHost : String
  meiliAPIKey : String
  esAddresses : List String
  esUsername : String
  esPassword : String
  indexName : String
deriving DecidableEq, Repr

structure InitResult where
  g : GlobalState
  fs : FsState
  hasTeardown : Bool
  err : Option String

/-- `Init`: set level and formatter, wire the requested sink (for `"file"`
with a non-empty path: `setupLogFile` then start the rotation goroutine,
returning the error early on failure), then construct the optional
Meilisearch and Elasticsearch clients and register their hooks.  On an
Elasticsearch construction failure the error is returned with no
teardown; the global side effects already performed persist. -/
def Init (env : SysEnv) (c : LoggerConfig) (g0 : GlobalState) (fs0 : FsState) :
    InitResult :=
  let g1 := { g0 with
    level := c.level
    format := if c.format = "json" then "json" else "text" }
  let fileStep : GlobalState × FsState × Option String :=
    if c.output = "stdout" then ({ g1 with out := Sink.stdout }, fs0, none)
    else if c.output = "stderr" then ({ g1 with out := Sink.stderr }, fs0, none)
    else if c.output = "file" then
      let g2 := { g1 with logPath := c.outputFile }
      if c.outputFile = "" then (g2, fs0, none)
      else
        let r := setupLogFile env g2 fs0
        match r.err with
        | some e => (r.g, r.fs, some e)
        | none => ({ r.g with rotationStarted := true }, r.fs, none)
    else (g1, fs0, none)
  match fileStep with
  | (g2, fs1, some e) => { g := g2, fs := fs1, hasTeardown := false, err := some e }
  | (g2, fs1, none) =>
      let g3 :=
        if c.meiliHost ≠ "" then
          addMeiliSearchHook { g2 with
            meiliClient := some ⟨c.meiliHost, c.meiliAPIKey⟩
            indexName := c.indexName }
        else g2
      if c.esAddresses ≠ [] then
        if env.esNewFails then
          { g := g3, fs := fs1, hasTeardown := false
            err := some "error initializing Elasticsearch client" }
        else
          { g := addElasticSearchHook { g3 with
              esClient := some ⟨c.esAddresses, c.esUsername, c.esPassword⟩
              indexName := c.indexName }
            fs := fs1, hasTeardown := true, err := none }
      else { g := g3, fs := fs1, hasTeardown := true, err := none }

/-- The cleanup closure returned by `Init`: it reads the global `logFile`
at invocation time and, when set, closes it discarding the error
(`_ = logFile.Close()`); it touches nothing else — in particular it never
stops the rotation ticker or goroutine. -/
def teardownRun (g : GlobalState) (fs : FsState) : GlobalState × FsState :=
  match g.logFile with
  | some h => (g, fs.closeH h)
  | none => (g, fs)

def TraceIDKey : String := "trace_id"
def VersionKey : String := "version"

/-- A request context, carrying at most a trace-id value. -/
structure Ctx where
  traceID : Option String
deriving DecidableEq, Repr

/-- Modelled from the spec: `getTraceID` (defined outside `src/`) reads
the trace id carried by the context, or the empty string when absent. -/
def getTraceID (ctx : Ctx) : String :=
  match ctx.traceID with
  | some t => t
  | none => ""

/-- Modelled from the spec: `EnsureTraceID` (defined outside `src/`)
returns the context's trace id unchanged when present, otherwise binds a
freshly generated id `gen` into a derived context and returns it. -/
def EnsureTraceID (gen : String) (ctx : Ctx) : Ctx × String :=
  match ctx.traceID with
  | some t => (ctx, t)
  | none => ({ traceID := some gen }, gen)

/-- `entryFromContext`: the automatic fields of every emitted entry —
always the trace id (from the context, or freshly generated), and the
version exactly when a non-empty version has been set. -/
def entryFromContext (gen : String) (g : GlobalState) (ctx : Ctx) :
    List (String × String) :=
  let t0 := getTraceID ctx
  let traceID := if t0 = "" then (EnsureTraceID gen ctx).2 else t0
  let fields := [(TraceIDKey, traceID)]
  if g.version ≠ "" then fields ++ [(VersionKey, g.version)] else fields

/-- The twelve emission wrappers (`Info`..`Panic` and `Infof`..`Panicf`). -/
inductive EmitOp
  | info
  | debug
  | warn
  | error
  | fatal
  | panicOp
deriving DecidableEq, Repr

/-- Every emission wrapper builds its entry's field mapping by the same
call `entryFromContext(ctx)`, whatever the level and variant. -/
def emitFields (op : EmitOp) (formatted : Bool) (gen : String)
    (g : GlobalState) (ctx : Ctx) : List (String × String) :=
  entryFromContext gen g ctx

/-- `EntryWithFields`: caller-supplied fields merged over the automatic
ones (`WithFields` lets the added fields override; with an association
list, `List.lookup` prefers the earlier binding, so the caller's fields
come first). -/
def EntryWithFields (gen : String) (g : GlobalState) (ctx : Ctx)
    (fields : List (String × String)) : List (String × String) :=
  fields ++ entryFromContext gen g ctx

/-- A logrus entry as the hooks see it: the field data, the entry time,
the already-formatted message, and the level.  `Data` does not contain
the message or the time — logrus keeps those in separate fields. -/
structure Entry where
  data : List (String × String)
  time : Nat
  message : String
  level : LogLevel
deriving DecidableEq, Repr

/-- Abstraction of Go `entry.Time.Format(time.RFC3339)`: an injective
rendering of the entry time. -/
def formatRFC3339 (t : Nat) : String :=
  "rfc3339:" ++ toString t

/-- What a hook hands to its backend client. -/
inductive Submission
  | meiliDocs (index : String) (payload : List (String × String))
  | elasticDoc (index : String) (docID : String) (payload : List (String × String))
deriving DecidableEq, Repr

/-- `MeiliSearchHook.Fire`: no-op without a client; otherwise marshal
`entry.Data` (only the field mapping) and submit it to the index. -/
def meiliFire (g : GlobalState) (e : Entry) : Option Submission :=
  match g.meiliClient with
  | none => none
  | some _ => some (Submission.meiliDocs g.indexName e.data)

/-- `ElasticSearchHook.Fire`: no-op without a client; otherwise submit
`entry.Data` under document id `entry.Time.Format(time.RFC3339)`. -/
def elasticFire (g : GlobalState) (e : Entry) : Option Submission :=
  match g.esClient with
  | none => none
  | some _ =>
      some (Submission.elasticDoc g.indexName (formatRFC3339 e.time) e.data)

/-- Ownership invariant of the Rotation Manager: every open descriptor is
the one held in the global `logFile` — so at most one is open. -/
def RMInv (g : GlobalState) (fs : FsState) : Prop :=
  match g.logFile with
  | none => fs.openIds = []
  | some h => fs.openIds = [] ∨ fs.openIds = [h.id]

/-- Replay of one file-system event, for inspecting the instants inside a
rotation step. -/
def applyEvent (fs : FsState) (e : FsEvent) : FsState :=
  match e with
  | FsEvent.closed i => { fs with openIds := fs.openIds.erase i }
  | FsEvent.openedFile p _ _ =>
      { fs with
        nextId := fs.nextId + 1
        openIds := fs.nextId :: fs.openIds
        files := ensureFile fs.files p }

/-- All intermediate file-system states along an event list. -/
def replayStates (fs : FsState) : List FsEvent → List FsState
  | [] => [fs]
  | e :: es => fs :: replayStates (applyEvent fs e) es

/-- In an event list, no close ever follows an open: every close event
precedes every open event. -/
def closesPrecedeOpens (evts : List FsEvent) : Prop :=
  evts.Pairwise (fun a b => a.isOpenEvt = true → b.isOpenEvt = true)

/-!
### Interleaving model of rotation against concurrent writers

logrus guards its `Out` field with the logger's mutex: an entry write
(read `Out`, append the serialized line) and `SetOutput` are each one
atomic action under that mutex.  `rotateLog`'s `logFile.Close()` and
`os.OpenFile` happen outside that mutex, before the `SetOutput` swap, so
writer actions can interleave between them.  The model below runs one
(successful) rotation against arbitrarily scheduled writers.
-/

inductive RotPC
  | start
  | closedOld
  | openedNew
  | done
deriving DecidableEq, Repr

inductive WriteRes
  | ok (line : String) (path : String)
  | failed (line : String) (pc : RotPC)
deriving DecidableEq, Repr

/-- The pre-rotation handle: yesterday's dated file, descriptor 0. -/
def oldH : Handle := ⟨0, logFilePathFor "app.log" "2024-01-01"⟩

/-- The path of the post-rotation (newly dated) file. -/
def newPath : String := logFilePathFor "app.log" "2024-01-02"

structure ConcState where
  fs : FsState
  out : Handle
  pc : RotPC
  newH : Option Handle
  writes : List WriteRes
deriving DecidableEq, Repr

/-- One step of the rotator: close the old handle; open the new file;
swap it in as the logger output (only this last action is under the
writers' mutex). -/
def rotStep (s : ConcState) : ConcState :=
  match s.pc with
  | RotPC.start => { s with fs := s.fs.closeH oldH, pc := RotPC.closedOld }
  | RotPC.closedOld =>
      let of := s.fs.openH newPath
      { s with fs := of.2, newH := some of.1, pc := RotPC.openedNew }
  | RotPC.openedNew =>
      match s.newH with
      | some h => { s with out := h, pc := RotPC.done }
      | none => s
  | RotPC.done => s

/-- One atomic writer action under the logger mutex: read `Out` and
append the line; observing a closed descriptor makes the write fail. -/
def writeStep (line : String) (s : ConcState) : ConcState :=
  if s.fs.openIds.contains s.out.id then
    { s with
      fs := { s.fs with files := appendLine s.fs.files s.out.path line }
      writes := s.writes ++ [WriteRes.ok line s.out.path] }
  else
    { s with writes := s.writes ++ [WriteRes.failed line s.pc] }

inductive CAction
  | rot
  | write (line : String)
deriving DecidableEq, Repr

def cstep (a : CAction) (s : ConcState) : ConcState :=
  match a with
  | CAction.rot => rotStep s
  | CAction.write l => writeStep l s

/-- Run a schedule: an arbitrary interleaving of rotator steps and writer
actions. -/
def cexec (sched : List CAction) (s : ConcState) : ConcState :=
  sched.foldl (fun st a => cstep a st) s

/-- Initial state: the old dated file open and installed as the output,
the rotation tick just fired. -/
def cinit : ConcState :=
  { fs := { nextId := 1, openIds := [0], files := [(oldH.path, [])] }
    out := oldH
    pc := RotPC.start
    newH := none
    writes := [] }

/-- Invariant of the interleaving model: the logger output is the old
handle or a handle on the new dated file; in the `start` and `done`
phases the output descriptor is open; the handle opened in the window
is on the new path and open; recorded successful writes landed in one of
the two dated files, and recorded failures happened only in the
close-to-swap window. -/
def ConcInv (s : ConcState) : Prop :=
  (s.out = oldH ∨ s.out.path = newPath) ∧
  (s.pc = RotPC.start → s.out = oldH ∧ s.fs.openIds.contains oldH.id = true) ∧
  (s.pc = RotPC.openedNew → ∃ h, s.newH = some h ∧ h.path = newPath ∧
      s.fs.openIds.contains h.id = true) ∧
  (s.pc = RotPC.done → s.fs.openIds.contains s.out.id = true) ∧
  (∀ l p, WriteRes.ok l p ∈ s.writes → p = oldH.path ∨ p = newPath) ∧
  (∀ l pc, WriteRes.failed l pc ∈ s.writes →
      pc = RotPC.closedOld ∨ pc = RotPC.openedNew)

/-! ### Concrete states and environments used in counterexamples and witnesses -/

/-- A benign environment: no OS call fails. -/
def envNone : SysEnv :=
  ⟨"2024-01-02", fun _ => false, fun _ => false, false, false⟩

/-- Environment where Elasticsearch client construction fails. -/
def envES : SysEnv :=
  ⟨"2024-01-02", fun _ => false, fun _ => false, false, true⟩

/-- Environment where every `os.OpenFile` fails (unwritable directory). -/
def envOpenFail : SysEnv :=
  ⟨"2024-01-02", fun _ => false, fun _ => true, false, false⟩

/-- A fresh global state: nothing configured, nothing open. -/
def g0 : GlobalState :=
  { level := 0, format := "text", out := Sink.dflt, hooks := []
    version := "", logFile := none, logPath := "", meiliClient := none
    esClient := none, indexName := "", rotationStarted := false }

/-- The empty file system. -/
def fs0 : FsState := ⟨0, [], []⟩

/-- Yesterday's dated log file handle. -/
def hOld : Handle := ⟨0, "app.2024-01-01.log"⟩

/-- Global state with yesterday's file open and active, rotation running. -/
def gOpen : GlobalState :=
  { g0 with logFile := some hOld, logPath := "app.log"
            out := Sink.fileH hOld, rotationStarted := true }

/-- File system matching `gOpen`: descriptor 0 open on yesterday's file,
which holds one line. -/
def fsOpen : FsState := ⟨1, [0], [("app.2024-01-01.log", ["old"])]⟩

/-- Config asking for a file sink plus an Elasticsearch backend. -/
def cfgES : LoggerConfig :=
  { level := 4, format := "json", output := "file", outputFile := "app.log"
    meiliHost := "", meiliAPIKey := "", esAddresses := ["http://es:9200"]
    esUsername := "u", esPassword := "p", indexName := "logs" }

/-- Config with file output but an empty output file path. -/
def cfgEmpty : LoggerConfig :=
  { level := 4, format := "json", output := "file", outputFile := ""
    meiliHost := "", meiliAPIKey := "", esAddresses := []
    esUsername := "", esPassword := "", indexName := "" }

/-- Global state with both remote clients configured. -/
def gW : GlobalState :=
  { g0 with meiliClient := some ⟨"http://meili", "key"⟩
            esClient := some ⟨["http://es:9200"], "u", "p"⟩
            indexName := "idx" }

/-- A concrete entry whose data lacks the message and any timestamp. -/
def entryC8 : Entry :=
  { data := [("trace_id", "abc"), ("user", "42")]
    time := 5, message := "hello", level := LogLevel.info }

/-! ## Theorems -/

/-- C3: every emission operation's field mapping always contains the
trace-id field (recovered from the context or freshly generated), and
contains the version field exactly when a non-empty version string has
been set. -/
theorem c3_entry_trace_and_version (op : EmitOp) (formatted : Bool)
    (gen : String) (g : GlobalState) (ctx : Ctx) :
    ((emitFields op formatted gen g ctx).lookup TraceIDKey).isSome = true ∧
    (((emitFields op formatted gen g ctx).lookup VersionKey).isSome = true ↔
      g.version ≠ "") := by
  unfold emitFields entryFromContext
  by_cases hv : g.version = "" <;>
    simp [hv, TraceIDKey, VersionKey, List.lookup]

lemma mem_rotateOpen_events (env : SysEnv) (g : GlobalState) (fs : FsState)
    (evts : List FsEvent) (p : String) (fl pm : Nat)
    (h : FsEvent.openedFile p fl pm ∈ (rotateOpen env g fs evts).events) :
    FsEvent.openedFile p fl pm ∈ evts ∨
      (p = logFilePathFor g.logPath env.today ∧
        fl = (O_APPEND ||| O_WRONLY ||| O_CREATE) ∧ pm = 438) := by
  by_cases ho : env.openFails (logFilePathFor g.logPath env.today) = true
  · simp only [rotateOpen, ho, if_true] at h
    exact Or.inl h
  · simp [rotateOpen, ho] at h
    exact h

lemma mem_rotateLog_events (env : SysEnv) (g : GlobalState) (fs : FsState)
    (p : String) (fl pm : Nat)
    (h : FsEvent.openedFile p fl pm ∈ (rotateLog env g fs).events) :
    p = logFilePathFor g.logPath env.today ∧
      fl = (O_APPEND ||| O_WRONLY ||| O_CREATE) ∧ pm = 438 := by
  unfold rotateLog at h
  split at h
  · rename_i hh
    split at h
    · rcases mem_rotateOpen_events _ _ _ _ _ _ _ h with hmem | hgoal
      · simp at hmem
      · exact hgoal
    · simp at h
  · rcases mem_rotateOpen_events _ _ _ _ _ _ _ h with hmem | hgoal
    · simp at hmem
    · exact hgoal

/-- C6: every file opened by the sink — at initialization
(`setupLogFile`) and at every rotation (`rotateLog`) — is named by
stripping a trailing `".log"` from the base path and appending a dot, the
date, and `".log"`; it is opened append/write/create with permission
0666, whose owner, group and world octal digits each include the write
bit. -/
theorem c6_open_naming_flags_perm (env : SysEnv) (g : GlobalState)
    (fs : FsState) (p : String) (fl pm : Nat)
    (hm : FsEvent.openedFile p fl pm ∈ (rotateLog env g fs).events ∨
          FsEvent.openedFile p fl pm ∈ (setupLogFile env g fs).events) :
    p = trimSuffix g.logPath ".log" ++ "." ++ env.today ++ ".log" ∧
    fl = (O_APPEND ||| O_WRONLY ||| O_CREATE) ∧
    pm = 438 ∧ pm / 64 % 8 % 2 = 0 ∧ pm / 64 % 8 / 2 % 2 = 1 ∧
    pm / 8 % 8 / 2 % 2 = 1 ∧ pm % 8 / 2 % 2 = 1 :=
  by
  have key : FsEvent.openedFile p fl pm ∈ (rotateLog env g fs).events := by
    rcases hm with hm | hm
    · exact hm
    · unfold setupLogFile at hm
      split at hm
      · simp at hm
      · exact hm
  rcases mem_rotateLog_events _ _ _ _ _ _ key with ⟨hp, hfl, hpm⟩
  subst hpm
  exact ⟨hp, hfl, rfl, by decide, by decide, by decide, by decide⟩

/-- C6 witness: a concrete rotation opens `app.2024-01-02.log` with the
stated flags and permissions. -/
theorem c6_witness :
    (FsEvent.openedFile "app.2024-01-02.log"
        (O_APPEND ||| O_WRONLY ||| O_CREATE) 438 ∈
        (rotateLog envNone { g0 with logPath := "app.log" } fs0).events ∨
      FsEvent.openedFile "app.2024-01-02.log"
        (O_APPEND ||| O_WRONLY ||| O_CREATE) 438 ∈
        (setupLogFile envNone { g0 with logPath := "app.log" } fs0).events) ∧
    "app.2024-01-02.log" =
      trimSuffix ({ g0 with logPath := "app.log" } : GlobalState).logPath ".log"
        ++ "." ++ envNone.today ++ ".log" :=
  ⟨Or.inl (by decide),
   (c6_open_naming_flags_perm envNone { g0 with logPath := "app.log" } fs0
      "app.2024-01-02.log" (O_APPEND ||| O_WRONLY ||| O_CREATE) 438
      (Or.inl (by decide))).1⟩

lemma hookExists_true_of_mem (hooks : List HookKind) (k : HookKind)
    (h : k ∈ hooks) : hookExists hooks k = true := by
  unfold hookExists
  exact List.elem_iff.mpr h

lemma hookExists_false_of_not_mem (hooks : List HookKind) (k : HookKind)
    (h : k ∉ hooks) : hookExists hooks k = false := by
  unfold hookExists
  cases hc : hooks.contains k with
  | false => rfl
  | true => exact absurd (List.elem_iff.mp hc) h

lemma addMeili_of_mem (g : GlobalState) (h : HookKind.meili ∈ g.hooks) :
    addMeiliSearchHook g = g := by
  unfold addMeiliSearchHook
  cases g.meiliClient with
  | none => rfl
  | some c => simp [hookExists_true_of_mem g.hooks HookKind.meili h]

lemma addElastic_of_mem (g : GlobalState) (h : HookKind.elastic ∈ g.hooks) :
    addElasticSearchHook g = g := by
  unfold addElasticSearchHook
  cases g.esClient with
  | none => rfl
  | some c => simp [hookExists_true_of_mem g.hooks HookKind.elastic h]

lemma iter_addMeili_of_mem (m : Nat) (g : GlobalState)
    (h : HookKind.meili ∈ g.hooks) : iterHook addMeiliSearchHook m g = g := by
  induction m with
  | zero => rfl
  | succ n ih => simpa [iterHook, addMeili_of_mem g h] using ih

lemma iter_addElastic_of_mem (m : Nat) (g : GlobalState)
    (h : HookKind.elastic ∈ g.hooks) : iterHook addElasticSearchHook m g = g := by
  induction m with
  | zero => rfl
  | succ n ih => simpa [iterHook, addElastic_of_mem g h] using ih

/-- C2: hook registration is idempotent — for every `n ≥ 1`, invoking the
registration path `n` times with the backend configured installs exactly
one hook of that kind, because registration skips hooks equal to one
already present. -/
theorem c2_hook_registration_idempotent (n : Nat) (g : GlobalState)
    (hn : 1 ≤ n) :
    (g.meiliClient.isSome = true → g.hooks.count HookKind.meili = 0 →
      (iterHook addMeiliSearchHook n g).hooks.count HookKind.meili = 1) ∧
    (g.esClient.isSome = true → g.hooks.count HookKind.elastic = 0 →
      (iterHook addElasticSearchHook n g).hooks.count HookKind.elastic = 1) := by
  obtain ⟨m, rfl⟩ : ∃ m, n = m + 1 :=
    ⟨n - 1, (Nat.succ_pred_eq_of_pos hn).symm⟩
  constructor
  · intro hc h0
    have hnotmem : HookKind.meili ∉ g.hooks := List.count_eq_zero.mp h0
    have hstep : addMeiliSearchHook g =
        { g with hooks := g.hooks ++ [HookKind.meili] } := by
      unfold addMeiliSearchHook
      cases hmc : g.meiliClient with
      | none => rw [hmc] at hc; simp at hc
      | some c =>
          simp [hookExists_false_of_not_mem g.hooks HookKind.meili hnotmem]
    have hmem : HookKind.meili ∈ g.hooks ++ [HookKind.meili] :=
      List.mem_append_right _ (List.mem_singleton.mpr rfl)
    calc (iterHook addMeiliSearchHook (m + 1) g).hooks.count HookKind.meili
        = (iterHook addMeiliSearchHook m
            { g with hooks := g.hooks ++ [HookKind.meili] }).hooks.count
              HookKind.meili := by rw [iterHook, hstep]
      _ = (g.hooks ++ [HookKind.meili]).count HookKind.meili := by
            rw [iter_addMeili_of_mem m _ hmem]
      _ = 1 := by rw [List.count_append, h0, List.count_singleton_self]
  · intro hc h0
    have hnotmem : HookKind.elastic ∉ g.hooks := List.count_eq_zero.mp h0
    have hstep : addElasticSearchHook g =
        { g with hooks := g.hooks ++ [HookKind.elastic] } := by
      unfold addElasticSearchHook
      cases hmc : g.esClient with
      | none => rw [hmc] at hc; simp at hc
      | some c =>
          simp [hookExists_false_of_not_mem g.hooks HookKind.elastic hnotmem]
    have hmem : HookKind.elastic ∈ g.hooks ++ [HookKind.elastic] :=
      List.mem_append_right _ (List.mem_singleton.mpr rfl)
    calc (iterHook addElasticSearchHook (m + 1) g).hooks.count HookKind.elastic
        = (iterHook addElasticSearchHook m
            { g with hooks := g.hooks ++ [HookKind.elastic] }).hooks.count
              HookKind.elastic := by rw [iterHook, hstep]
      _ = (g.hooks ++ [HookKind.elastic]).count HookKind.elastic := by
            rw [iter_addElastic_of_mem m _ hmem]
      _ = 1 := by rw [List.count_append, h0, List.count_singleton_self]

/-- C2 witness: three registrations of each hook on a doubly-configured
fresh logger leave exactly one hook of each kind. -/
theorem c2_witness :
    1 ≤ 3 ∧ gW.meiliClient.isSome = true ∧
    gW.hooks.count HookKind.meili = 0 ∧
    gW.esClient.isSome = true ∧ gW.hooks.count HookKind.elastic = 0 ∧
    (iterHook addMeiliSearchHook 3 gW).hooks.count HookKind.meili = 1 ∧
    (iterHook addElasticSearchHook 3 gW).hooks.count HookKind.elastic = 1 :=
  ⟨by decide, by decide, by decide, by decide, by decide,
   (c2_hook_registration_idempotent 3 gW (by decide)).1 (by decide) (by decide),
   (c2_hook_registration_idempotent 3 gW (by decide)).2 (by decide) (by decide)⟩

/-- C4: under the rotation manager's ownership invariant, a rotation step
preserves the invariant (so at most one handle is open for writing at
any instant, including at every intermediate instant of the step), its
event trace closes before it opens, and the trace replays exactly to the
resulting file system — repeated rotations therefore never leak
descriptors. -/
theorem c4_single_handle_close_before_open (env : SysEnv) (g : GlobalState)
    (fs : FsState) (hInv : RMInv g fs) :
    RMInv (rotateLog env g fs).g (rotateLog env g fs).fs ∧
    closesPrecedeOpens (rotateLog env g fs).events ∧
    (rotateLog env g fs).fs = (rotateLog env g fs).events.foldl applyEvent fs ∧
    (∀ s ∈ replayStates fs (rotateLog env g fs).events,
        s.openIds.length ≤ 1) := by
  unfold RMInv at hInv
  cases hLF : g.logFile with
  | none =>
    rw [hLF] at hInv
    by_cases ho : env.openFails (logFilePathFor g.logPath env.today) = true
    · simp [rotateLog, rotateOpen, hLF, ho, RMInv, closesPrecedeOpens,
        replayStates, hInv]
    · simp [rotateLog, rotateOpen, hLF, ho, RMInv, closesPrecedeOpens,
        replayStates, applyEvent, FsState.openH, ensureFile, hInv,
        FsEvent.isOpenEvt]
  | some h =>
    rw [hLF] at hInv
    by_cases hcl : closeSucceeds env fs h = true
    · have hopen : fs.openIds = [h.id] := by
        rcases hInv with h0 | h1
        · exfalso
          unfold closeSucceeds at hcl
          rw [h0] at hcl
          simp at hcl
        · exact h1
      by_cases ho : env.openFails (logFilePathFor g.logPath env.today) = true
      · simp [rotateLog, rotateOpen, hLF, hcl, ho, RMInv, closesPrecedeOpens,
          replayStates, applyEvent, FsState.closeH, hopen, FsEvent.isOpenEvt]
      · simp [rotateLog, rotateOpen, hLF, hcl, ho, RMInv, closesPrecedeOpens,
          replayStates, applyEvent, FsState.closeH, FsState.openH, ensureFile,
          hopen, FsEvent.isOpenEvt]
    · have hred : rotateLog env g fs =
          { g := g, fs := fs, events := [], err := some "close failed" } := by
        simp [rotateLog, hLF, hcl]
      rw [hred]
      refine ⟨?_, ?_, rfl, ?_⟩
      · simp only [RMInv, hLF]
        exact hInv
      · simp [closesPrecedeOpens]
      · intro s hs
        simp [replayStates] at hs
        subst hs
        rcases hInv with h0 | h0 <;> simp [h0]

/-- C4 witness: the invariant holds for the fresh state and is preserved
by a concrete rotation. -/
theorem c4_witness :
    RMInv gOpen fsOpen ∧
    (RMInv (rotateLog envNone gOpen fsOpen).g
        (rotateLog envNone gOpen fsOpen).fs ∧
     closesPrecedeOpens (rotateLog envNone gOpen fsOpen).events ∧
     (rotateLog envNone gOpen fsOpen).fs =
        (rotateLog envNone gOpen fsOpen).events.foldl applyEvent fsOpen ∧
     (∀ s ∈ replayStates fsOpen (rotateLog envNone gOpen fsOpen).events,
        s.openIds.length ≤ 1)) :=
  ⟨Or.inr rfl, c4_single_handle_close_before_open envNone gOpen fsOpen
    (Or.inr rfl)⟩

/-- C1 counterexample: the directory becomes unwritable while yesterday's
file is open; the tick's rotation fails after the close has already
succeeded, the failure is logged at error level, and a subsequent write
does NOT land in the previously-open file — it fails, and the old file's
contents stay as they were.  This refutes the claim that subsequent
writes continue landing in the previously-open file. -/
theorem c1_counterexample :
    (tickRotation envOpenFail gOpen fsOpen).err ≠ none ∧
    (tickRotation envOpenFail gOpen fsOpen).emitted.map Prod.fst =
      [LogLevel.error] ∧
    (tickRotation envOpenFail gOpen fsOpen).g.out = Sink.fileH hOld ∧
    (writeToSink (tickRotation envOpenFail gOpen fsOpen).g
        (tickRotation envOpenFail gOpen fsOpen).fs "after").2 = false ∧
    (writeToSink (tickRotation envOpenFail gOpen fsOpen).g
        (tickRotation envOpenFail gOpen fsOpen).fs "after").1.files.lookup
      "app.2024-01-01.log" = some ["old"] := by decide

/-- C1 (amended): when a periodic-tick rotation fails, the rotation is
aborted — `logFile` and the output sink are left as they were — and the
failure is logged as exactly one error-level entry, the process keeps
running; if the close failed, the previously active handle is untouched
(still open, writes keep landing in it); but if the close succeeded and
the open failed, the previous handle has already been closed, so
subsequent writes through the retained sink fail instead of landing in
the previously-open file. -/
theorem c1_tick_rotation_failure (env : SysEnv) (g : GlobalState)
    (fs : FsState) (h : Handle) (hLF : g.logFile = some h)
    (hInv : RMInv g fs) (hfail : (rotateLog env g fs).err ≠ none) :
    (tickRotation env g fs).g.logFile = some h ∧
    (tickRotation env g fs).g.out = g.out ∧
    (tickRotation env g fs).emitted.map Prod.fst = [LogLevel.error] ∧
    (closeSucceeds env fs h = false → (tickRotation env g fs).fs = fs) ∧
    (closeSucceeds env fs h = true →
      (tickRotation env g fs).fs.openIds.contains h.id = false ∧
      (g.out = Sink.fileH h → ∀ line,
        (writeToSink (tickRotation env g fs).g (tickRotation env g fs).fs
          line).2 = false ∧
        (writeToSink (tickRotation env g fs).g (tickRotation env g fs).fs
          line).1 = (tickRotation env g fs).fs)) := by
  unfold RMInv at hInv
  rw [hLF] at hInv
  by_cases hcl : closeSucceeds env fs h = true
  · have hopen : fs.openIds = [h.id] := by
      rcases hInv with h0 | h1
      · exfalso
        unfold closeSucceeds at hcl
        rw [h0] at hcl
        simp at hcl
      · exact h1
    by_cases ho : env.openFails (logFilePathFor g.logPath env.today) = true
    · refine ⟨?_, ?_, ?_, ?_, fun _ => ⟨?_, ?_⟩⟩
      · simp [tickRotation, rotateLog, rotateOpen, hLF, hcl, ho]
      · simp [tickRotation, rotateLog, rotateOpen, hLF, hcl, ho]
      · simp [tickRotation, rotateLog, rotateOpen, hLF, hcl, ho]
      · simp [hcl]
      · simp [tickRotation, rotateLog, rotateOpen, hLF, hcl, ho, hopen,
          FsState.closeH]
      · intro hout line
        simp [tickRotation, rotateLog, rotateOpen, hLF, hcl, ho, hopen,
          FsState.closeH, writeToSink, hout]
    · exfalso
      apply hfail
      simp [rotateLog, rotateOpen, hLF, hcl, ho]
  · refine ⟨?_, ?_, ?_, ?_, ?_⟩ <;>
      simp [tickRotation, rotateLog, hLF, hcl]

/-- C1 amended witness: the concrete unwritable-directory scenario
satisfies the amended theorem's hypotheses and conclusions. -/
theorem c1_tick_rotation_failure_witness :
    gOpen.logFile = some hOld ∧ RMInv gOpen fsOpen ∧
    (rotateLog envOpenFail gOpen fsOpen).err ≠ none ∧
    (tickRotation envOpenFail gOpen fsOpen).g.logFile = some hOld :=
  ⟨rfl, Or.inr rfl, by decide,
   (c1_tick_rotation_failure envOpenFail gOpen fsOpen hOld rfl (Or.inr rfl)
      (by decide)).1⟩

lemma cinit_inv : ConcInv cinit := by
  refine ⟨Or.inl rfl, fun _ => ⟨rfl, rfl⟩, ?_, ?_, ?_, ?_⟩
  · intro hx
    exact absurd hx (by decide)
  · intro hx
    exact absurd hx (by decide)
  · intro l p hmem
    exact absurd hmem (by simp [cinit])
  · intro l pc hmem
    exact absurd hmem (by simp [cinit])

lemma cstep_preserves_inv (a : CAction) (s : ConcState) (hs : ConcInv s) :
    ConcInv (cstep a s) := by
  obtain ⟨h1, h2, h3, h4, h5, h6⟩ := hs
  cases a with
  | write l =>
    by_cases hw : s.fs.openIds.contains s.out.id = true
    · simp only [cstep, writeStep, hw, if_true]
      refine ⟨h1, h2, h3, h4, ?_, ?_⟩
      · intro l' p hmem
        rcases List.mem_append.mp hmem with hmem | hmem
        · exact h5 l' p hmem
        · rcases WriteRes.ok.inj (List.mem_singleton.mp hmem) with ⟨hl, hp⟩
          subst hp
          rcases h1 with h1 | h1
          · rw [h1]
            exact Or.inl rfl
          · exact Or.inr h1
      · intro l' pc hmem
        rcases List.mem_append.mp hmem with hmem | hmem
        · exact h6 l' pc hmem
        · exact absurd (List.mem_singleton.mp hmem) (by simp)
    · simp only [cstep, writeStep, hw, if_false]
      refine ⟨h1, h2, h3, h4, ?_, ?_⟩
      · intro l' p hmem
        rcases List.mem_append.mp hmem with hmem | hmem
        · exact h5 l' p hmem
        · exact absurd (List.mem_singleton.mp hmem) (by simp)
      · intro l' pc hmem
        rcases List.mem_append.mp hmem with hmem | hmem
        · exact h6 l' pc hmem
        · rcases WriteRes.failed.inj (List.mem_singleton.mp hmem) with ⟨hl, hpc⟩
          subst hpc
          cases hpcs : s.pc with
          | start =>
              exfalso
              apply hw
              rw [(h2 hpcs).1]
              exact (h2 hpcs).2
          | closedOld => exact Or.inl rfl
          | openedNew => exact Or.inr rfl
          | done => exact absurd (h4 hpcs) hw
  | rot =>
    cases hpc : s.pc with
    | start =>
        simp only [cstep, rotStep, hpc]
        refine ⟨h1, ?_, ?_, ?_, h5, h6⟩
        · intro hx
          simp at hx
        · intro hx
          simp at hx
        · intro hx
          simp at hx
    | closedOld =>
        simp only [cstep, rotStep, hpc]
        refine ⟨h1, ?_, ?_, ?_, h5, h6⟩
        · intro hx
          simp at hx
        · intro _
          refine ⟨(s.fs.openH newPath).1, rfl, rfl, ?_⟩
          simp [FsState.openH]
        · intro hx
          simp at hx
    | openedNew =>
        obtain ⟨hh, hnewH, hpath, hcont⟩ := h3 hpc
        simp only [cstep, rotStep, hpc, hnewH]
        refine ⟨Or.inr hpath, ?_, ?_, ?_, h5, h6⟩
        · intro hx
          simp at hx
        · intro hx
          simp at hx
        · intro _
          exact hcont
    | done =>
        simp only [cstep, rotStep, hpc]
        exact ⟨h1, h2, h3, h4, h5, h6⟩

lemma cexec_preserves_inv (sched : List CAction) (s : ConcState)
    (hs : ConcInv s) : ConcInv (cexec sched s) := by
  induction sched generalizing s with
  | nil => exact hs
  | cons a t ih => exact ih (cstep a s) (cstep_preserves_inv a s hs)

/-- C5 counterexample: schedule the writer right after the rotator's
close and before the swap.  The write observes a closed handle, fails,
and its line lands in neither the pre-rotation nor the post-rotation
file — refuting that the old-to-new swap is guarded against writers so
that every concurrent write lands in exactly one of the two files. -/
theorem c5_counterexample :
    (cexec [CAction.rot, CAction.write "x"] cinit).writes =
      [WriteRes.failed "x" RotPC.closedOld] ∧
    (cexec [CAction.rot, CAction.write "x"] cinit).fs.files.lookup
      oldH.path = some [] ∧
    (cexec [CAction.rot, CAction.write "x"] cinit).fs.files.lookup
      newPath = none := by decide

/-- C5 (amended): only the output-pointer swap is atomic with respect to
writers; the close of the old handle happens before the swap and outside
that guard.  Hence in every interleaving, each successful write lands in
exactly one of the two (distinct) dated files, and a write can fail —
observing a closed handle — only when the rotator is between the close
and the swap. -/
theorem c5_swap_window (sched : List CAction) :
    oldH.path ≠ newPath ∧
    (∀ l p, WriteRes.ok l p ∈ (cexec sched cinit).writes →
      p = oldH.path ∨ p = newPath) ∧
    (∀ l pc, WriteRes.failed l pc ∈ (cexec sched cinit).writes →
      pc = RotPC.closedOld ∨ pc = RotPC.openedNew) := by
  have hinv := cexec_preserves_inv sched cinit cinit_inv
  exact ⟨by decide, hinv.2.2.2.2.1, hinv.2.2.2.2.2⟩

/-- C5 amended witness: a write scheduled after the completed rotation
lands in the post-rotation file. -/
theorem c5_swap_window_witness :
    WriteRes.ok "a" newPath ∈
      (cexec [CAction.rot, CAction.rot, CAction.rot, CAction.write "a"]
        cinit).writes ∧
    (newPath = oldH.path ∨ newPath = newPath) :=
  ⟨by decide,
   (c5_swap_window [CAction.rot, CAction.rot, CAction.rot,
      CAction.write "a"]).2.1 "a" newPath (by decide)⟩

/-- C7 counterexample: with a file output configured and Elasticsearch
client construction failing, `Init` returns the error and no teardown —
but logging capability HAS been established by then: the dated log file
is open and set as the active sink and the rotation task is running.
This refutes "no logging capability is established / no working logger
state from that call". -/
theorem c7_counterexample :
    (Init envES cfgES g0 fs0).err ≠ none ∧
    (Init envES cfgES g0 fs0).hasTeardown = false ∧
    (Init envES cfgES g0 fs0).g.rotationStarted = true ∧
    (Init envES cfgES g0 fs0).g.logFile.isSome = true ∧
    (Init envES cfgES g0 fs0).g.out ≠ Sink.dflt := by decide

/-- C7 (amended): if Elasticsearch client construction fails during
`Init`, the error is returned to the caller and no teardown function is
produced — but the global side effects already performed persist: with a
file output, the dated log file stays open and the rotation task keeps
running. -/
theorem c7_es_failure_side_effects (env : SysEnv) (c : LoggerConfig)
    (g : GlobalState) (fs : FsState)
    (hout : c.output = "file") (hpath : c.outputFile ≠ "")
    (hmk : env.mkdirFails = false)
    (hopen : env.openFails (logFilePathFor c.outputFile env.today) = false)
    (hLF : g.logFile = none) (hmh : c.meiliHost = "")
    (hes : c.esAddresses ≠ []) (hfail : env.esNewFails = true) :
    (Init env c g fs).err ≠ none ∧
    (Init env c g fs).hasTeardown = false ∧
    (Init env c g fs).g.rotationStarted = true ∧
    (Init env c g fs).g.logFile.isSome = true := by
  simp [Init, setupLogFile, rotateLog, rotateOpen, hout, hpath, hmk, hopen,
    hLF, hmh, hes, hfail]

/-- C7 amended witness. -/
theorem c7_es_failure_side_effects_witness :
    cfgES.esAddresses ≠ [] ∧ envES.esNewFails = true ∧
    (Init envES cfgES g0 fs0).g.rotationStarted = true :=
  ⟨by decide, rfl,
   (c7_es_failure_side_effects envES cfgES g0 fs0 rfl (by decide) rfl rfl
      rfl rfl (by decide) rfl).2.2.1⟩

/-- C8 counterexample: both hooks forward exactly `entry.Data` — the
field mapping.  For a concrete entry with message `"hello"`, the
Meilisearch submission contains neither the formatted message nor any
timestamp field, refuting that the payload contains the message and that
the timestamp is embedded in the Meilisearch submission. -/
theorem c8_counterexample :
    meiliFire gW entryC8 =
      some (Submission.meiliDocs "idx" [("trace_id", "abc"), ("user", "42")]) ∧
    elasticFire gW entryC8 =
      some (Submission.elasticDoc "idx" "rfc3339:5"
        [("trace_id", "abc"), ("user", "42")]) ∧
    entryC8.message = "hello" ∧
    (∀ kv ∈ entryC8.data, kv.2 ≠ "hello") ∧
    (∀ kv ∈ entryC8.data, kv.1 ≠ "time" ∧ kv.1 ≠ "timestamp") := by decide

lemma traceKey_mem_entryFromContext (gen : String) (g : GlobalState)
    (ctx : Ctx) : ∃ v, (TraceIDKey, v) ∈ entryFromContext gen g ctx := by
  unfold entryFromContext
  by_cases hv : g.version = "" <;> simp [hv]

lemma versionKey_mem_entryFromContext (gen : String) (g : GlobalState)
    (ctx : Ctx) (hv : g.version ≠ "") :
    (VersionKey, g.version) ∈ entryFromContext gen g ctx := by
  unfold entryFromContext
  simp [hv]

/-- C8 (amended): each entry forwarded by a hook's Fire is the entry's
field mapping — containing the trace-id field, the version field when
set, and the caller-supplied fields, but NOT the formatted message; the
timestamp is attached separately as the index document id for
Elasticsearch only, and is not part of the Meilisearch submission. -/
theorem c8_fire_payloads (g : GlobalState) (e : Entry) (gen : String)
    (ctx : Ctx) (cf : List (String × String))
    (hdata : e.data = EntryWithFields gen g ctx cf)
    (hm : g.meiliClient.isSome = true) (he : g.esClient.isSome = true) :
    meiliFire g e = some (Submission.meiliDocs g.indexName e.data) ∧
    elasticFire g e =
      some (Submission.elasticDoc g.indexName (formatRFC3339 e.time) e.data) ∧
    (∃ v, (TraceIDKey, v) ∈ e.data) ∧
    (g.version ≠ "" → (VersionKey, g.version) ∈ e.data) ∧
    (∀ kv ∈ cf, kv ∈ e.data) := by
  refine ⟨?_, ?_, ?_, ?_, ?_⟩
  · cases hmc : g.meiliClient with
    | none => rw [hmc] at hm; simp at hm
    | some c => simp [meiliFire, hmc]
  · cases hec : g.esClient with
    | none => rw [hec] at he; simp at he
    | some c => simp [elasticFire, hec]
  · rw [hdata]
    unfold EntryWithFields
    obtain ⟨v, hv⟩ := traceKey_mem_entryFromContext gen g ctx
    exact ⟨v, List.mem_append.mpr (Or.inr hv)⟩
  · intro hver
    rw [hdata]
    unfold EntryWithFields
    exact List.mem_append.mpr
      (Or.inr (versionKey_mem_entryFromContext gen g ctx hver))
  · intro kv hkv
    rw [hdata]
    unfold EntryWithFields
    exact List.mem_append.mpr (Or.inl hkv)

/-- C8 amended witness. -/
theorem c8_fire_payloads_witness :
    gW.meiliClient.isSome = true ∧ gW.esClient.isSome = true ∧
    (∃ v, (TraceIDKey, v) ∈ EntryWithFields "t1" gW ⟨none⟩ [("k", "w")]) :=
  ⟨by decide, by decide,
   (c8_fire_payloads gW
      { data := EntryWithFields "t1" gW ⟨none⟩ [("k", "w")], time := 7,
        message := "m", level := LogLevel.info } "t1" ⟨none⟩ [("k", "w")]
      rfl (by decide) (by decide)).2.2.1⟩

/-- C9 counterexample: the teardown returned by `Init` closes the open
log file, but it does not terminate the rotation background task or
close its ticker — the task state is untouched, refuting that teardown
"terminates the rotation background task ... closes the rotation
ticker/timer". -/
theorem c9_counterexample :
    gOpen.rotationStarted = true ∧
    (teardownRun gOpen fsOpen).2.openIds = [] ∧
    (teardownRun gOpen fsOpen).1.rotationStarted = true ∧
    (teardownRun gOpen fsOpen).1 = gOpen := by decide

/-- C9 (amended): the teardown returned by `Init` flushes and closes any
open log file handle, and does nothing else: the globals — in particular
the running rotation task and its ticker — are left untouched, so the
background task continues until process exit. -/
theorem c9_teardown_closes_file_only (g : GlobalState) (fs : FsState) :
    (teardownRun g fs).1 = g ∧
    (teardownRun g fs).2 = (match g.logFile with
      | some h => fs.closeH h
      | none => fs) := by
  cases hLF : g.logFile <;> simp [teardownRun, hLF]

/-- C10 counterexample: `Init` with `output = "file"` and an empty output
file path, invoked while a previous initialization's log file is still
open, succeeds and leaves the sink unchanged — but the returned teardown
closes the pre-existing handle (descriptor 0 goes from open to closed),
refuting "(it closes nothing)". -/
theorem c10_counterexample :
    (Init envNone cfgEmpty gOpen fsOpen).err = none ∧
    (Init envNone cfgEmpty gOpen fsOpen).hasTeardown = true ∧
    fsOpen.openIds = [0] ∧
    (teardownRun (Init envNone cfgEmpty gOpen fsOpen).g
      (Init envNone cfgEmpty gOpen fsOpen).fs).2.openIds = [] := by decide

/-- C10 (amended): `Init` with output kind `"file"` and an empty output
file path succeeds (teardown and nil error), opens no file, starts no
rotation task, and leaves the previously active output sink unchanged;
the returned teardown closes nothing when no log file handle was already
open — but when an earlier initialization left one open, it closes that
pre-existing handle. -/
theorem c10_empty_path_init (env : SysEnv) (c : LoggerConfig)
    (g : GlobalState) (fs : FsState) (hout : c.output = "file")
    (hpath : c.outputFile = "") (hmh : c.meiliHost = "")
    (hes : c.esAddresses = []) :
    (Init env c g fs).err = none ∧
    (Init env c g fs).hasTeardown = true ∧
    (Init env c g fs).fs = fs ∧
    (Init env c g fs).g.out = g.out ∧
    (Init env c g fs).g.logFile = g.logFile ∧
    (Init env c g fs).g.rotationStarted = g.rotationStarted ∧
    (g.logFile = none →
      teardownRun (Init env c g fs).g (Init env c g fs).fs =
        ((Init env c g fs).g, fs)) := by
  refine ⟨?_, ?_, ?_, ?_, ?_, ?_, ?_⟩ <;>
    simp [Init, hout, hpath, hmh, hes, teardownRun]
  intro hLF
  simp [hLF]

/-- C10 amended witness: from a fresh state, the teardown closes
nothing. -/
theorem c10_empty_path_init_witness :
    cfgEmpty.output = "file" ∧ cfgEmpty.outputFile = "" ∧
    g0.logFile = none ∧
    teardownRun (Init envNone cfgEmpty g0 fs0).g
        (Init envNone cfgEmpty g0 fs0).fs =
      ((Init envNone cfgEmpty g0 fs0).g, fs0) :=
  ⟨rfl, rfl, rfl,
   (c10_empty_path_init envNone cfgEmpty g0 fs0 rfl rfl rfl
      rfl).2.2.2.2.2.2 rfl⟩

end CommonLog
